import Mathlib

/-!
# Verification of the pass-it-on message-routing core

A shallow embedding, in Lean 4, of the routing core of the `pass-it-on`
notification relay (Rust), together with theorems settling the behavioural
claims about it.

Modelling conventions:

* Rust machine integers are modelled as `Nat`/`Int` with explicit range
  conditions or `% 2 ^ w` where the source truncates (for instance the
  `as u8` cast in `valid_key_length`).
* Fallible Rust functions returning `Result` are modelled with `Except`;
  functions that panic are modelled with `Option` (`none` = panic).
* BLAKE3 keyed hashing (the external `blake3` crate) is modelled
  symbolically as a free term algebra `HashVal`: `bytes b` is a hash value
  built from raw bytes and `keyed k d` is the keyed hash of the data `d`
  under the key `k`.  Distinct terms denote distinct hash values — the
  standard collision-free idealisation of a cryptographic hash.  The
  lowercase-hex rendering of a hash is modelled by any injective map from
  hash values to strings (`HashVal.to_hex` below); injectivity is the one
  property of hex rendering the code relies on.
* `serde_json` (external crate) is modelled at the JSON-value level: the
  wire string is represented by the tree of JSON values it parses to
  (`Json` below), and a raw multi-value payload by a `List JsonStreamItem`,
  where `JsonStreamItem.malformed` stands for a position at which the
  stream has a JSON syntax error.  `serde_json`'s `StreamDeserializer`
  stops after the first error (it sets its `failed` flag and then yields
  `None` forever); the embedding of `from_json_multi` reproduces that.
-/

namespace PassItOn

/-- Errors returned by the pass-it-on library (`src/error.rs`), restricted to
the variants the routing core uses.  `InvalidKeyLength` is constructed at
`src/configuration.rs:123` with a `u8` payload (`key.len() as u8`); its
payload is modelled as a `Nat` that the use site reduces `% 256`.
`SerdeJsonError` wraps a `serde_json` error, modelled by its message. -/
inductive Error where
  | MissingEndpoint : Error
  | MissingInterface : Error
  | InvalidInterfaceConfiguration : String → Error
  | InvalidEndpointConfiguration : String → Error
  | InvalidMatrixRoomIdentifier : Error
  | InvalidPortNumber : Int → Error
  | InvalidKeyLength : Nat → Error
  | SerdeJsonError : String → Error
  | UrlParseError : String → Error
deriving DecidableEq, Repr

instance {ε α : Type} [DecidableEq ε] [DecidableEq α] : DecidableEq (Except ε α) :=
  fun x y =>
    match x, y with
    | .ok a, .ok b =>
      if h : a = b then .isTrue (by rw [h]) else .isFalse (by simp [h])
    | .error a, .error b =>
      if h : a = b then .isTrue (by rw [h]) else .isFalse (by simp [h])
    | .ok _, .error _ => .isFalse (by simp)
    | .error _, .ok _ => .isFalse (by simp)

/-! ## Configuration-load key validation (`src/configuration.rs:120-125`)

```rust
fn valid_key_length(key: &str) -> Result<(), Error> {
    match key.len() == 32 {
        true => Ok(()),
        false => Err(Error::InvalidKeyLength(key.len() as u8)),
    }
}
```

`str::len` counts UTF-8 bytes, modelled by `String.utf8ByteSize`; the
`as u8` cast truncates modulo `2 ^ 8`. -/

def valid_key_length (key : String) : Except Error Unit :=
  if key.utf8ByteSize = 32 then Except.ok ()
  else Except.error (Error.InvalidKeyLength (key.utf8ByteSize % 256))

/-! ## Matrix room validation (`src/endpoints/matrix/notify.rs:196-211`)

```rust
fn validate_room(room: &str, default_server: &str) -> Result<String, Error> {
    let room = room.trim();
    if room.starts_with('!') || room.starts_with('#') {
        if !room.contains(':') {
            let mut room = String::from(room);
            room.push(':');
            room.push_str(default_server);
            Ok(room)
        } else {
            Ok(room.to_string())
        }
    } else {
        warn!(...);
        Err(Error::InvalidMatrixRoomIdentifier)
    }
}
```

On `Err` the caller (`send_messages`, `if let Ok(msg_room) = ...`) skips the
message, so the error return models the message being dropped.  The Rust
`str` primitives are external; they are modelled over the character list:
`str::trim` strips leading and trailing whitespace, `str::starts_with(c)`
tests the first character, `str::contains(c)` tests membership. -/

def rustTrim (s : String) : String :=
  String.mk (((s.data.dropWhile Char.isWhitespace).reverse.dropWhile
    Char.isWhitespace).reverse)

def rustStartsWithChar (s : String) (c : Char) : Bool :=
  match s.data with
  | [] => false
  | c2 :: _ => c2 == c

def rustContainsChar (s : String) (c : Char) : Bool :=
  s.data.contains c

def validate_room (room : String) (default_server : String) : Except Error String :=
  let room := rustTrim room
  if rustStartsWithChar room '!' || rustStartsWithChar room '#' then
    if !(rustContainsChar room ':') then Except.ok (room ++ ":" ++ default_server)
    else Except.ok room
  else Except.error Error.InvalidMatrixRoomIdentifier

/-! ## HTTP interface configuration (`src/interfaces/http.rs:72-149`)

```rust
impl TryFrom<&HttpSocketConfigFile> for HttpSocketInterface {
    fn try_from(value: &HttpSocketConfigFile) -> Result<Self, Self::Error> {
        if !(value.port < u16::MAX as i64 && value.port > u16::MIN as i64) {
            return Err(Error::InvalidPortNumber(value.port));
        }
        let mut url = parse_url(value.host.as_str())?;
        match value.tls { true => url.set_scheme(HTTPS), false => url.set_scheme(HTTP) }.unwrap();
        url.set_port(Some(value.port as u16)).unwrap();
        Ok(HttpSocketInterface::new(&url, value.tls_cert_path.as_ref(), value.tls_key_path.as_ref()))
    }
}
```

`u16::MAX as i64 = 65535` and `u16::MIN as i64 = 0`, and both comparisons
are strict.  The port guard runs before `parse_url`, so a bad port wins
over a bad host.

The external `url` crate is modelled by a `Url` record of the components
this code touches — scheme, explicit port, and the rest of the URL
abbreviated to one string:

* `parse_url(value.host)?` can fail (its `Err` becomes `Error::UrlParseError`
  and propagates out of `try_from` via `?`); parsing itself happens outside
  the embedded function, so `try_from` takes the parse outcome
  `Except Error Url` as an argument.
* `Url::set_scheme` to `"http"`/`"https"` replaces the scheme (between these
  two special schemes it always returns `Ok`, so the `.unwrap()` is the
  identity; the model treats the scheme switch as total).
* `Url::set_port(Some(p))` stores the port, except that the `url` crate
  never records a port equal to the scheme's default — `80` for http, `443`
  for https — in which case `Url::port()` returns `None`.
* `HttpSocketInterface::new` (`src/interfaces/http.rs:74-81`) reads the
  fields back off the URL: `tls` is whether the scheme equals `https`
  (case-insensitively — the scheme just set is already lowercase), and
  `port` is `url.port().unwrap_or(DEFAULT_PORT)` with `DEFAULT_PORT = 8080`;
  so configuring port 80 without TLS (or 443 with TLS) actually yields an
  interface port of 8080. -/

structure Url where
  scheme : String
  port : Option Nat
  rest : String
deriving DecidableEq, Repr

/-- `url::Url::set_scheme` restricted to the special schemes this code
switches between. -/
def Url.set_scheme (u : Url) (s : String) : Url :=
  { u with scheme := s }

/-- The `url` crate's known default port for the schemes in play. -/
def Url.schemeDefaultPort (scheme : String) : Option Nat :=
  if scheme = "http" then some 80
  else if scheme = "https" then some 443
  else none

/-- `url::Url::set_port(Some(p))`: a port equal to the scheme's default is
not recorded. -/
def Url.set_port (u : Url) (p : Nat) : Url :=
  { u with port := if some p = Url.schemeDefaultPort u.scheme then none else some p }

structure HttpSocketConfigFile where
  host : String
  tls : Bool
  port : Int
  tls_cert_path : Option String
  tls_key_path : Option String
deriving DecidableEq, Repr

/-- Defaults from `impl Default for HttpSocketConfigFile`
(`src/interfaces/http.rs:114-118`): localhost, no TLS, port 8080. -/
def HttpSocketConfigFile.default : HttpSocketConfigFile :=
  { host := "http://localhost", tls := false, port := 8080,
    tls_cert_path := none, tls_key_path := none }

structure HttpSocketInterface where
  host : Url
  tls : Bool
  port : Nat
  tls_cert_path : Option String
  tls_key_path : Option String
deriving DecidableEq, Repr

/-- `HttpSocketInterface::new` (`src/interfaces/http.rs:74-81`): clone the
URL, derive `tls` from the scheme and `port` from `url.port()` with default
8080. -/
def HttpSocketInterface.new (host_url : Url) (cert_path : Option String)
    (key_path : Option String) : HttpSocketInterface :=
  { host := host_url, tls := host_url.scheme == "https",
    port := host_url.port.getD 8080,
    tls_cert_path := cert_path, tls_key_path := key_path }

/-- `TryFrom<&HttpSocketConfigFile> for HttpSocketInterface`
(`src/interfaces/http.rs:132-149`); `parsed` is the outcome of the external
call `parse_url(value.host.as_str())`. -/
def HttpSocketInterface.try_from (value : HttpSocketConfigFile)
    (parsed : Except Error Url) : Except Error HttpSocketInterface :=
  if !(value.port < 65535 && value.port > 0) then
    Except.error (Error.InvalidPortNumber value.port)
  else
    match parsed with
    | .error e => Except.error e
    | .ok url =>
      let url := url.set_scheme (if value.tls then "https" else "http")
      let url := url.set_port value.port.toNat
      Except.ok (HttpSocketInterface.new url value.tls_cert_path value.tls_key_path)

/-- The parse of the default host `"http://localhost"`: scheme `http`, no
explicit port. -/
def localhostUrl : Url :=
  { scheme := "http", port := none, rest := "localhost" }

/-! ## Data model (`src/notifications.rs`)

`Key` wraps a `blake3::Hash`; hashing is modelled symbolically (see the
file header): `HashVal.bytes b` is `Hash::from(bytes)` and
`HashVal.keyed k d` is `Hasher::new_keyed(k).update(d).finalize()`. -/

inductive HashVal where
  | bytes : List Nat → HashVal
  | keyed : HashVal → String → HashVal
deriving DecidableEq, Repr

/-- An injective code of symbolic hash values, used to build the injective
hex rendering `HashVal.to_hex`. -/
def HashVal.code : HashVal → Nat
  | .bytes b => 2 * Encodable.encode b
  | .keyed k d => 2 * Nat.pair k.code (Encodable.encode (d.data.map Char.toNat)) + 1

/-- `blake3::Hash::to_hex` renders the 32 hash bytes as 64 lowercase hex
characters — an injective map from hash values to strings.  The model
realises it by any concrete injective map into `String`. -/
def HashVal.to_hex (h : HashVal) : String :=
  String.mk (List.replicate h.code 'a')

/-- `pub struct Key { hash: Hash }` (`src/notifications.rs:43-45`). -/
structure Key where
  hash : HashVal
deriving DecidableEq, Repr

/-- `Key::generate` (`src/notifications.rs:182-186`): keyed BLAKE3 hash of
the name's UTF-8 bytes under the given key. -/
def Key.generate (name : String) (hash_key : Key) : Key :=
  { hash := HashVal.keyed hash_key.hash name }

/-- `Key::from_bytes` (`src/notifications.rs:189-192`); the Rust argument is
`&[u8; 32]`, modelled as a byte list (the 32-length invariant is not needed
by any claim). -/
def Key.from_bytes (key : List Nat) : Key :=
  { hash := HashVal.bytes key }

/-- `Key::to_hex` (`src/notifications.rs:201-203`). -/
def Key.to_hex (k : Key) : String :=
  k.hash.to_hex

/-- `pub struct Message { text: String, time: u128 }`
(`src/notifications.rs:12-15`); `time` is nanoseconds since the epoch,
a `u128`, modelled as `Nat` (with the range `< 2 ^ 128` stated where the
codec depends on it). -/
structure Message where
  text : String
  time : Nat
deriving DecidableEq, Repr

/-- `Message::create_key` (`src/notifications.rs:128-131`):
`Key::generate(format!("{}{}", self.text, self.time), notification_key)` —
the hashed data is the text concatenated with the decimal rendering of the
time. -/
def Message.create_key (m : Message) (notification_key : Key) : Key :=
  Key.generate (m.text ++ toString m.time) notification_key

/-- `pub struct ClientReadyMessage { message: Message, notification_name: String }`
(`src/notifications.rs:19-22`). -/
structure ClientReadyMessage where
  message : Message
  notification_name : String
deriving DecidableEq, Repr

/-- `ClientReadyMessage::new` (`src/notifications.rs:141-143`). -/
def ClientReadyMessage.new (notification_name : String) (message : Message) :
    ClientReadyMessage :=
  { message := message, notification_name := notification_name }

/-- `pub struct ValidatedNotification { message: Message, sub_name: String }`
(`src/notifications.rs:26-29`). -/
structure ValidatedNotification where
  message : Message
  sub_name : String
deriving DecidableEq, Repr

/-- `ValidatedNotification::new` (`src/notifications.rs:165-167`). -/
def ValidatedNotification.new (name_id : String) (message : Message) :
    ValidatedNotification :=
  { message := message, sub_name := name_id }

/-- `pub struct Notification { message: Message, key: String }`
(`src/notifications.rs:33-36`); `key` holds the lowercase-hex MAC. -/
structure Notification where
  message : Message
  key : String
deriving DecidableEq, Repr

/-- `Notification::new` (`src/notifications.rs:49-52`):
`key = message.create_key(notification_key).to_hex()`. -/
def Notification.new (message : Message) (notification_key : Key) : Notification :=
  { message := message, key := (message.create_key notification_key).to_hex }

/-- `Notification::validate` (`src/notifications.rs:81-84`): recompute the
MAC under the candidate key and compare with the stored hex string. -/
def Notification.validate (n : Notification) (hash_key : Key) : Bool :=
  n.key == (n.message.create_key hash_key).to_hex

/-- `Notification::validate_set` (`src/notifications.rs:88-96`): try each
key of the set, short-circuiting on the first hit (`List.any`); the set is
modelled as a list in the `HashSet`'s iteration order. -/
def Notification.validate_set (n : Notification) (hash_keys : List Key) : Bool :=
  hash_keys.any n.validate

/-- `ClientReadyMessage::to_notification` (`src/notifications.rs:146-150`):
derive the notification-name key from the client key and sign the message
with it. -/
def ClientReadyMessage.to_notification (self : ClientReadyMessage) (client_key : Key) :
    Notification :=
  Notification.new self.message (Key.generate self.notification_name client_key)

/-! ## Wire codec (`src/notifications.rs:54-77`, external `serde_json`)

The codec is embedded at the JSON-value level (see the file header): `Json`
is the tree a frame parses to.  The derived `Serialize` writes struct
fields in declaration order; the derived `Deserialize` accepts an object,
looks fields up by name and ignores unknown fields.  JSON numbers are
modelled as naturals since the only numeric field, `time`, deserializes
into `u128` (deserialization enforces `< 2 ^ 128`). -/

inductive Json where
  | str : String → Json
  | num : Nat → Json
  | bool : Bool → Json
  | null : Json
  | arr : List Json → Json
  | obj : List (String × Json) → Json

/-- Derived `Serialize` for `Message` (`#[derive(Serialize)]`,
`src/notifications.rs:11-15`). -/
def Message.to_json (m : Message) : Json :=
  Json.obj [("text", Json.str m.text), ("time", Json.num m.time)]

/-- Derived `Serialize` for `Notification` (`src/notifications.rs:32-36`);
`Notification::to_json` (`src/notifications.rs:75-77`) serializes with
`serde_json::to_string`, which cannot fail on these structs. -/
def Notification.to_json (n : Notification) : Json :=
  Json.obj [("message", n.message.to_json), ("key", Json.str n.key)]

/-- Derived `Deserialize` for `Message`: expects an object carrying a string
`text` and a `u128` `time`. -/
def Message.from_json : Json → Except Error Message
  | .obj fields =>
    match fields.lookup "text" with
    | some (.str t) =>
      match fields.lookup "time" with
      | some (.num tm) =>
        if tm < 2 ^ 128 then Except.ok { text := t, time := tm }
        else Except.error (Error.SerdeJsonError "number out of range for u128")
      | _ => Except.error (Error.SerdeJsonError "missing or invalid field time")
    | _ => Except.error (Error.SerdeJsonError "missing or invalid field text")
  | _ => Except.error (Error.SerdeJsonError "expected struct Message")

/-- `Notification::from_json` (`src/notifications.rs:55-57`) via the derived
`Deserialize` for `Notification`. -/
def Notification.from_json : Json → Except Error Notification
  | .obj fields =>
    match fields.lookup "message" with
    | some mj =>
      match Message.from_json mj with
      | .ok m =>
        match fields.lookup "key" with
        | some (.str k) => Except.ok { message := m, key := k }
        | _ => Except.error (Error.SerdeJsonError "missing or invalid field key")
      | .error e => Except.error e
    | none => Except.error (Error.SerdeJsonError "missing field message")
  | _ => Except.error (Error.SerdeJsonError "expected struct Notification")

/-- One position of a multi-value payload as seen by `serde_json`'s
`StreamDeserializer`: either a parsed JSON value or a syntax error. -/
inductive JsonStreamItem where
  | value : Json → JsonStreamItem
  | malformed : JsonStreamItem

/-- `Notification::from_json_multi` (`src/notifications.rs:60-72`): iterate
the `StreamDeserializer`, pushing `Ok` per decoded notification and `Err`
per error.  The `StreamDeserializer` sets its `failed` flag on the first
error — syntax or data — and yields `None` from then on, so iteration stops
after the first `Err`. -/
def Notification.from_json_multi : List JsonStreamItem → List (Except Error Notification)
  | [] => []
  | .malformed :: _ => [Except.error (Error.SerdeJsonError "malformed JSON value")]
  | .value j :: rest =>
    match Notification.from_json j with
    | .ok n => Except.ok n :: Notification.from_json_multi rest
    | .error e => [Except.error e]

/-! ## Server dispatch (`src/server.rs:47-79`, `src/endpoints.rs`)

`EndpointChannel` pairs an endpoint with its broadcast sender and its key
map `HashMap<String, HashSet<Key>>`.  The embedding keeps the key map as an
association list in iteration order (a `HashMap` iterates each key exactly
once, so the sub-names are pairwise distinct); the endpoint trait object
and the broadcast channel are represented by the dispatch output itself:
`endpointPublishes` lists, in the validator's iteration order, exactly the
`ValidatedNotification`s the loop body sends on that endpoint's channel. -/

structure EndpointChannel where
  keys : List (String × List Key)

/-- The inner two loops of `process_incoming_notifications`
(`src/server.rs:57-72`): for each `(sub_name, keys)` entry whose key set
validates the notification, publish
`ValidatedNotification::new(sub_name, note.message())` on the endpoint's
channel.  A send error is logged and ignored, so the published list is
independent of subscriber state. -/
def endpointPublishes (note : Notification) (e : EndpointChannel) :
    List ValidatedNotification :=
  e.keys.filterMap fun p =>
    if note.validate_set p.2 then some (ValidatedNotification.new p.1 note.message)
    else none

/-- The endpoint loop of `process_incoming_notifications` for one decoded
notification (`src/server.rs:55-73`): per-endpoint published messages, in
endpoint order. -/
def serverDispatch (note : Notification) (endpoints : List EndpointChannel) :
    List (List ValidatedNotification) :=
  endpoints.map (endpointPublishes note)

/-- One iteration of `process_incoming_notifications`'s outer loop
(`src/server.rs:50-78`) on a received frame: decode with
`from_json_multi`, log and skip each `Err`, and dispatch each `Ok`
notification; bus `i` of the result receives the concatenation, in decode
order, of the publishes of every successfully decoded notification.  No
branch produces an error: unmatched notifications and decode errors leave
the loop running. -/
def processFrame (endpoints : List EndpointChannel) (frame : List JsonStreamItem) :
    List (List ValidatedNotification) :=
  let notes := (Notification.from_json_multi frame).filterMap fun r =>
    match r with
    | .ok n => some n
    | .error _ => none
  endpoints.map fun e => (notes.map fun n => endpointPublishes n e).flatten

/-! ## `Key::from_hex` (`src/notifications.rs:195-198`, external `blake3`)

```rust
pub fn from_hex<S: AsRef<str>>(key: S) -> Key {
    let hash = Hash::from_hex(key.as_ref()).expect("Unable to create Key from hex");
    Self { hash }
}
```

`blake3::Hash::from_hex` requires exactly 64 hex digits (`0-9`, `a-f`,
`A-F`) and decodes consecutive pairs into the 32 hash bytes; on any other
input it returns an error, which `expect` turns into a panic.  The panic is
modelled by `Option`: `none` means the Rust call panics.  Hex digits are
ASCII, so counting characters and counting bytes agree on every input the
decoder accepts. -/

def hexCharValue (c : Char) : Option Nat :=
  if 'A' ≤ c ∧ c ≤ 'F' then some (c.toNat - 'A'.toNat + 10)
  else if 'a' ≤ c ∧ c ≤ 'f' then some (c.toNat - 'a'.toNat + 10)
  else if '0' ≤ c ∧ c ≤ '9' then some (c.toNat - '0'.toNat)
  else none

/-- Decode consecutive pairs of hex digits into bytes, failing on any
non-digit (and on a dangling digit, which cannot arise at even length). -/
def decodeHexBytes : List Char → Option (List Nat)
  | [] => some []
  | [_] => none
  | c1 :: c2 :: rest => do
    let hi ← hexCharValue c1
    let lo ← hexCharValue c2
    let b ← decodeHexBytes rest
    pure ((16 * hi + lo) :: b)

/-- `blake3::Hash::from_hex`, fallibly. -/
def Hash.from_hex (s : String) : Option (List Nat) :=
  if s.data.length = 64 then decodeHexBytes s.data else none

/-- `Key::from_hex` with the panic reified as `none`: the Rust function
returns `Key { hash }` exactly on the `some` cases and panics (via
`expect`) on the `none` cases. -/
def Key.from_hex (s : String) : Option Key :=
  (Hash.from_hex s).map fun b => { hash := HashVal.bytes b }

/-! ## HTTP server notification handler (`src/interfaces/http/http_server.rs:61-73`)

```rust
async fn notification_handler(
    State(tx): State<mpsc::Sender<String>>,
    Json(notification): Json<Notification>,
) -> StatusCode {
    match tx.send(notification.to_json().unwrap_or_default()).await {
        Ok(_) => StatusCode::OK,
        Err(e) => { warn!(...); StatusCode::BAD_REQUEST }
    }
}
```

A bounded `tokio::sync::mpsc` sender is modelled by its queued contents
plus a closed flag: `send` awaits capacity and fails exactly when the
channel is closed (every receiver dropped).  The queued payloads are the
JSON frames (one notification per POST body); `to_json()` cannot fail on a
`Notification`, so `unwrap_or_default` never takes the default branch. -/

structure MpscSender where
  closed : Bool
  buffer : List Json

/-- `tokio::sync::mpsc::Sender::send`: enqueue at the back, or fail when the
channel is closed. -/
def MpscSender.send (tx : MpscSender) (msg : Json) : Except Unit MpscSender :=
  if tx.closed then Except.error ()
  else Except.ok { tx with buffer := tx.buffer ++ [msg] }

inductive StatusCode where
  | OK : StatusCode
  | BAD_REQUEST : StatusCode
deriving DecidableEq, Repr

/-- `notification_handler`: result status paired with the channel state
after the call. -/
def notification_handler (tx : MpscSender) (notification : Notification) :
    StatusCode × MpscSender :=
  match tx.send notification.to_json with
  | .ok tx2 => (StatusCode.OK, tx2)
  | .error _ => (StatusCode.BAD_REQUEST, tx)

/-! ## Supporting lemmas -/

theorem char_toNat_injective : Function.Injective Char.toNat := by
  intro a b h
  apply Char.eq_of_val_eq
  apply UInt32.eq_of_toBitVec_eq
  exact BitVec.toNat_injective h

theorem hashval_code_injective : Function.Injective HashVal.code := by
  intro h1
  induction h1 with
  | bytes b =>
    intro h2 heq
    cases h2 with
    | bytes b2 =>
      simp only [HashVal.code] at heq
      have : Encodable.encode b = Encodable.encode b2 := by omega
      exact congrArg HashVal.bytes (Encodable.encode_injective this)
    | keyed k2 d2 => simp only [HashVal.code] at heq; omega
  | keyed k d ih =>
    intro h2 heq
    cases h2 with
    | bytes b2 => simp only [HashVal.code] at heq; omega
    | keyed k2 d2 =>
      simp only [HashVal.code] at heq
      have hpair : Nat.pair k.code (Encodable.encode (d.data.map Char.toNat)) =
          Nat.pair k2.code (Encodable.encode (d2.data.map Char.toNat)) := by omega
      rw [Nat.pair_eq_pair] at hpair
      have hk : k = k2 := ih hpair.1
      have hd : d.data.map Char.toNat = d2.data.map Char.toNat :=
        Encodable.encode_injective hpair.2
      have hd2 : d.data = d2.data := List.map_injective_iff.mpr char_toNat_injective hd
      cases d; cases d2; cases hk; cases hd2; rfl

theorem hashval_to_hex_injective : Function.Injective HashVal.to_hex := by
  intro a b h
  apply hashval_code_injective
  have hdata : List.replicate a.code 'a' = List.replicate b.code 'a' :=
    congrArg String.data h
  have := congrArg List.length hdata
  simpa using this

theorem key_to_hex_injective : Function.Injective Key.to_hex := by
  intro a b h
  cases a; cases b
  exact congrArg Key.mk (hashval_to_hex_injective h)

theorem assoc_mem_eq_of_nodup_keys {α β : Type} (l : List (α × β))
    (hnd : (l.map Prod.fst).Nodup) {p q : α × β} (hp : p ∈ l) (hq : q ∈ l)
    (h : p.1 = q.1) : p = q := by
  induction l with
  | nil => cases hp
  | cons a l ih =>
    rw [List.map_cons, List.nodup_cons] at hnd
    rcases List.mem_cons.mp hp with rfl | hp2
    · rcases List.mem_cons.mp hq with rfl | hq2
      · rfl
      · exact absurd (by rw [h]; exact List.mem_map_of_mem Prod.fst hq2) hnd.1
    · rcases List.mem_cons.mp hq with rfl | hq2
      · exact absurd (by rw [← h]; exact List.mem_map_of_mem Prod.fst hp2) hnd.1
      · exact ih hnd.2 hp2 hq2

theorem from_json_to_json (n : Notification) (h : n.message.time < 2 ^ 128) :
    Notification.from_json n.to_json = Except.ok n := by
  obtain ⟨⟨t, tm⟩, k⟩ := n
  simp only [Message.time] at h
  simp [Notification.to_json, Message.to_json, Notification.from_json,
    Message.from_json, List.lookup, h]
  rw [if_pos (by exact_mod_cast h)]

theorem mem_endpointPublishes (note : Notification) (e : EndpointChannel)
    (v : ValidatedNotification) :
    v ∈ endpointPublishes note e ↔
      ∃ p ∈ e.keys, note.validate_set p.2 = true ∧
        v = ValidatedNotification.new p.1 note.message := by
  simp only [endpointPublishes, List.mem_filterMap]
  constructor
  · rintro ⟨p, hp, hif⟩
    by_cases hv : note.validate_set p.2 = true
    · rw [if_pos hv] at hif
      exact ⟨p, hp, hv, (Option.some.inj hif).symm⟩
    · rw [if_neg hv] at hif
      cases hif
  · rintro ⟨p, hp, hv, rfl⟩
    exact ⟨p, hp, by rw [if_pos hv]⟩

theorem decodeHexBytes_isSome : ∀ l : List Char,
    (decodeHexBytes l).isSome = true ↔
      l.length % 2 = 0 ∧ ∀ c ∈ l, (hexCharValue c).isSome = true
  | [] => by simp [decodeHexBytes]
  | [c] => by simp [decodeHexBytes]
  | c1 :: c2 :: rest => by
    have ih := decodeHexBytes_isSome rest
    cases h1 : hexCharValue c1
    · simp [decodeHexBytes, h1]
    · cases h2 : hexCharValue c2
      · simp [decodeHexBytes, h1, h2]
      · have hmod : (rest.length + 1 + 1) % 2 = rest.length % 2 := by omega
        cases h3 : decodeHexBytes rest
        · rw [h3] at ih
          simp only [Option.isSome_none, Bool.false_eq_true, false_iff] at ih
          simp [decodeHexBytes, h1, h2, h3, hmod, ih]
        · rw [h3] at ih
          simp only [Option.isSome_some, true_iff] at ih
          simp [decodeHexBytes, h1, h2, h3, hmod, ih.1]
          exact ih.2

/-! ## Claim theorems -/

set_option maxRecDepth 4096 in
/-- C5 counterexample: the claim says a failed key-length check reports
`InvalidKeyLength` "carrying the offending length", but the source casts
`key.len() as u8`.  A 257-byte key is reported as `InvalidKeyLength(1)`,
not `InvalidKeyLength(257)`. -/
theorem valid_key_length_counterexample :
    valid_key_length (String.mk (List.replicate 257 'a')) =
        Except.error (Error.InvalidKeyLength 1)
    ∧ (String.mk (List.replicate 257 'a')).utf8ByteSize = 257
    ∧ (1 : Nat) ≠ 257 := by
  refine ⟨by decide, by decide, by decide⟩

/-- C5 (amended): key validation at configuration load succeeds exactly when
the key is 32 bytes long; otherwise it fails with `InvalidKeyLength`
carrying the offending byte length reduced modulo 256 (the `as u8` cast) —
which is the offending length itself whenever that length is below 256, in
particular for 31- and 33-byte keys. -/
theorem valid_key_length_amended (key : String) :
    (valid_key_length key = Except.ok () ↔ key.utf8ByteSize = 32)
    ∧ (key.utf8ByteSize ≠ 32 →
        valid_key_length key =
          Except.error (Error.InvalidKeyLength (key.utf8ByteSize % 256))) := by
  by_cases h : key.utf8ByteSize = 32 <;> simp [valid_key_length, h]

/-- C5 witness: a 32-byte key passes; a 31-byte key fails with
`InvalidKeyLength 31`. -/
theorem valid_key_length_amended_witness :
    valid_key_length (String.mk (List.replicate 32 'a')) = Except.ok ()
    ∧ valid_key_length (String.mk (List.replicate 31 'a')) =
        Except.error (Error.InvalidKeyLength 31) := by
  refine ⟨(valid_key_length_amended _).1.mpr (by decide),
    ((valid_key_length_amended _).2 (by decide)).trans (by decide)⟩

/-- C7: `validate_room` canonicalizes a trimmed room starting with `#` or
`!`: it appends `:<default_server>` when the room has no `:`, returns the
room unchanged when it has one, and rejects every room starting with
neither `#` nor `!` with `InvalidMatrixRoomIdentifier` (on which the caller
drops the message). -/
theorem validate_room_spec (r d : String) :
    ((rustStartsWithChar (rustTrim r) '#' = true ∨
        rustStartsWithChar (rustTrim r) '!' = true) →
      validate_room r d =
        Except.ok (if rustContainsChar (rustTrim r) ':' then rustTrim r
          else rustTrim r ++ ":" ++ d))
    ∧ (rustStartsWithChar (rustTrim r) '#' = false →
        rustStartsWithChar (rustTrim r) '!' = false →
      validate_room r d = Except.error Error.InvalidMatrixRoomIdentifier) := by
  constructor
  · intro h
    by_cases hc : rustContainsChar (rustTrim r) ':' <;>
      rcases h with h | h <;> simp [validate_room, h, hc]
  · intro h1 h2
    simp [validate_room, h1, h2]

/-- C7 witness: `" #room"` with no colon is canonicalized against the
default server; `"room"` is rejected. -/
theorem validate_room_spec_witness :
    validate_room " #room" "example.com" = Except.ok "#room:example.com"
    ∧ validate_room "room" "example.com" =
        Except.error Error.InvalidMatrixRoomIdentifier := by
  refine ⟨((validate_room_spec " #room" "example.com").1 (Or.inl (by decide))).trans
      (by decide),
    (validate_room_spec "room" "example.com").2 (by decide) (by decide)⟩

/-- C4: the claim (and the spec, and the error type's own documentation —
"Port needs to be in a valid u16 range", "valid u16 value expected") say a
port is rejected with `InvalidPortNumber` exactly when it is outside the
u16 port range, but the guard `value.port < u16::MAX as i64` is strict, so
the valid u16 port 65535 is rejected with `InvalidPortNumber(65535)`.
Precisely: `InvalidPortNumber(port)` is returned iff the guard
`0 < port < 65535` fails, whatever `parse_url` does (the guard runs first);
when the host parses, conversion succeeds exactly for `0 < port < 65535`;
when the host does not parse, an in-range port propagates the parse error
instead of succeeding; the boundary values 0 and 65536 are rejected as
claimed. -/
theorem http_port_check_bug :
    (∀ (cfg : HttpSocketConfigFile) (url : Url),
      HttpSocketInterface.try_from cfg (Except.ok url) =
          Except.error (Error.InvalidPortNumber cfg.port) ↔
        ¬(0 < cfg.port ∧ cfg.port < 65535))
    ∧ (∀ (cfg : HttpSocketConfigFile) (url : Url),
      (∃ i, HttpSocketInterface.try_from cfg (Except.ok url) = Except.ok i) ↔
        0 < cfg.port ∧ cfg.port < 65535)
    ∧ (∀ (cfg : HttpSocketConfigFile) (e : Error),
      HttpSocketInterface.try_from cfg (Except.error e) =
        if 0 < cfg.port ∧ cfg.port < 65535 then Except.error e
        else Except.error (Error.InvalidPortNumber cfg.port))
    ∧ HttpSocketInterface.try_from { HttpSocketConfigFile.default with port := 65535 }
        (Except.ok localhostUrl) = Except.error (Error.InvalidPortNumber 65535)
    ∧ HttpSocketInterface.try_from { HttpSocketConfigFile.default with port := 0 }
        (Except.ok localhostUrl) = Except.error (Error.InvalidPortNumber 0)
    ∧ HttpSocketInterface.try_from { HttpSocketConfigFile.default with port := 65536 }
        (Except.ok localhostUrl) = Except.error (Error.InvalidPortNumber 65536) := by
  refine ⟨fun cfg url => ?_, fun cfg url => ?_, fun cfg e => ?_,
    by decide, by decide, by decide⟩
  · by_cases hlt : cfg.port < 65535 <;> by_cases hgt : cfg.port > 0 <;>
      simp [HttpSocketInterface.try_from, hlt, hgt]
  · by_cases hlt : cfg.port < 65535 <;> by_cases hgt : cfg.port > 0 <;>
      simp [HttpSocketInterface.try_from, hlt, hgt]
  · by_cases hlt : cfg.port < 65535 <;> by_cases hgt : cfg.port > 0 <;>
      simp [HttpSocketInterface.try_from, hlt, hgt]

/-- C9: the HTTP notification handler returns `200 OK` exactly when
enqueuing the received notification's JSON onto the ingress queue succeeds;
when the channel is closed the enqueue fails and it returns
`400 Bad Request` leaving the queue untouched, and when the channel is open
it returns `200 OK` having appended the frame. -/
theorem notification_handler_spec (tx : MpscSender) (n : Notification) :
    ((notification_handler tx n).1 = StatusCode.OK ↔
      tx.send n.to_json = Except.ok { tx with buffer := tx.buffer ++ [n.to_json] })
    ∧ (tx.closed = true →
        notification_handler tx n = (StatusCode.BAD_REQUEST, tx))
    ∧ (tx.closed = false →
        notification_handler tx n =
          (StatusCode.OK, { tx with buffer := tx.buffer ++ [n.to_json] })) := by
  cases htx : tx.closed <;>
    simp [notification_handler, MpscSender.send, htx]

/-- C9 witness: an open channel yields `200 OK` with the frame enqueued; a
closed channel yields `400 Bad Request`. -/
theorem notification_handler_spec_witness :
    notification_handler { closed := false, buffer := [] }
        { message := { text := "hello", time := 1 }, key := "k" } =
      (StatusCode.OK,
        { closed := false,
          buffer := [Notification.to_json
            { message := { text := "hello", time := 1 }, key := "k" }] })
    ∧ notification_handler { closed := true, buffer := [] }
        { message := { text := "hello", time := 1 }, key := "k" } =
      (StatusCode.BAD_REQUEST, { closed := true, buffer := [] }) := by
  exact ⟨(notification_handler_spec _ _).2.2 rfl,
    (notification_handler_spec _ _).2.1 rfl⟩

/-- C1: a `Notification` built by the client from a `ClientReadyMessage`
with notification name `N` under master key `M` validates against
`Key::generate(N, M)`, and fails validation against a key derived from any
other name or any other master key.  (The negative half holds in the
symbolic, collision-free model of BLAKE3 keyed hashing; in reality it holds
up to hash collisions.) -/
theorem notification_validate_correct (msg : Message) (N : String) (M : Key) :
    ((ClientReadyMessage.new N msg).to_notification M).validate (Key.generate N M) = true
    ∧ ∀ (N2 : String) (M2 : Key), N2 ≠ N ∨ M2 ≠ M →
      ((ClientReadyMessage.new N msg).to_notification M).validate
        (Key.generate N2 M2) = false := by
  constructor
  · simp [ClientReadyMessage.to_notification, ClientReadyMessage.new, Notification.new,
      Notification.validate]
  · intro N2 M2 hne
    simp only [ClientReadyMessage.to_notification, ClientReadyMessage.new, Notification.new,
      Notification.validate]
    rw [beq_eq_false_iff_ne]
    intro heq
    have h2 := key_to_hex_injective heq
    simp only [Message.create_key, Key.generate, Key.mk.injEq, HashVal.keyed.injEq] at h2
    obtain ⟨⟨hM, hN⟩, -⟩ := h2
    rcases hne with hne | hne
    · exact hne hN.symm
    · exact hne (congrArg Key.mk hM.symm)

/-- C1 witness at the spec's end-to-end scenario: name `"test1"`, message
`"hello"` at time `1000000000`; validation succeeds with the key derived
from `"test1"` and fails with the key derived from `"test2"`. -/
theorem notification_validate_correct_witness :
    ((ClientReadyMessage.new "test1"
          { text := "hello", time := 1000000000 }).to_notification
        (Key.from_bytes [0, 1, 2])).validate
      (Key.generate "test1" (Key.from_bytes [0, 1, 2])) = true
    ∧ ((ClientReadyMessage.new "test1"
          { text := "hello", time := 1000000000 }).to_notification
        (Key.from_bytes [0, 1, 2])).validate
      (Key.generate "test2" (Key.from_bytes [0, 1, 2])) = false :=
  ⟨(notification_validate_correct { text := "hello", time := 1000000000 } "test1"
      (Key.from_bytes [0, 1, 2])).1,
    (notification_validate_correct { text := "hello", time := 1000000000 } "test1"
      (Key.from_bytes [0, 1, 2])).2 "test2" (Key.from_bytes [0, 1, 2])
      (Or.inl (by decide))⟩

/-- C6: JSON round-trip — decoding the encoding of any `Notification`
returns it unchanged (message text, time, and hex key field), given the
`u128` range invariant the Rust type enforces for `time`. -/
theorem notification_json_roundtrip (n : Notification)
    (h : n.message.time < 2 ^ 128) :
    Notification.from_json n.to_json = Except.ok n :=
  from_json_to_json n h

/-- C6 witness: round-trip of a concrete notification. -/
theorem notification_json_roundtrip_witness :
    Notification.from_json
        (Notification.to_json { message := { text := "hello", time := 1000000000 }, key := "abc" }) =
      Except.ok { message := { text := "hello", time := 1000000000 }, key := "abc" } :=
  notification_json_roundtrip
    { message := { text := "hello", time := 1000000000 }, key := "abc" } (by decide)

/-- C3 counterexample: the claim says a malformed value at position `k`
yields `Err` at `k` and `Ok` for every other well-formed value.  With a
malformed value at position 1 of 3, decoding yields only two results —
`serde_json`'s `StreamDeserializer` stops after the first error, so the
well-formed value at position 2 is never decoded. -/
theorem from_json_multi_counterexample :
    Notification.from_json_multi
        [JsonStreamItem.value
            (Notification.to_json { message := { text := "a", time := 1 }, key := "k" }),
          JsonStreamItem.malformed,
          JsonStreamItem.value
            (Notification.to_json { message := { text := "a", time := 1 }, key := "k" })] =
      [Except.ok { message := { text := "a", time := 1 }, key := "k" },
        Except.error (Error.SerdeJsonError "malformed JSON value")]
    ∧ (Notification.from_json_multi
        [JsonStreamItem.value
            (Notification.to_json { message := { text := "a", time := 1 }, key := "k" }),
          JsonStreamItem.malformed,
          JsonStreamItem.value
            (Notification.to_json { message := { text := "a", time := 1 }, key := "k" })]).length
      ≠ 3 := by
  refine ⟨by decide, by decide⟩

/-- C3 (amended): for a batch of `k` well-formed encoded notifications the
decoder yields exactly `k` results, `Ok` of each notification in order; a
malformed value after a well-formed prefix yields `Ok` for each prefix
value followed by a single `Err`, after which decoding stops — values past
the error position are not decoded. -/
theorem from_json_multi_amended :
    (∀ ns : List Notification, (∀ n ∈ ns, n.message.time < 2 ^ 128) →
      Notification.from_json_multi (ns.map fun n => JsonStreamItem.value n.to_json) =
        ns.map Except.ok)
    ∧ (∀ (pre : List Notification) (rest : List JsonStreamItem),
        (∀ n ∈ pre, n.message.time < 2 ^ 128) →
        Notification.from_json_multi
            ((pre.map fun n => JsonStreamItem.value n.to_json) ++
              JsonStreamItem.malformed :: rest) =
          pre.map Except.ok ++
            [Except.error (Error.SerdeJsonError "malformed JSON value")]) := by
  constructor
  · intro ns h
    induction ns with
    | nil => rfl
    | cons n ns ih =>
      have hn := h n (by simp)
      have hrest : ∀ m ∈ ns, m.message.time < 2 ^ 128 := fun m hm => h m (by simp [hm])
      simp [Notification.from_json_multi, from_json_to_json n hn, ih hrest]
  · intro pre rest h
    induction pre with
    | nil => rfl
    | cons n ns ih =>
      have hn := h n (by simp)
      have hrest : ∀ m ∈ ns, m.message.time < 2 ^ 128 := fun m hm => h m (by simp [hm])
      simp [Notification.from_json_multi, from_json_to_json n hn, ih hrest]

/-- C3 witness: a batch of one well-formed value decodes to one `Ok`; a
well-formed value followed by a malformed one decodes to `[Ok, Err]`. -/
theorem from_json_multi_amended_witness :
    Notification.from_json_multi
        [JsonStreamItem.value
          (Notification.to_json { message := { text := "a", time := 1 }, key := "k" })] =
      [Except.ok { message := { text := "a", time := 1 }, key := "k" }]
    ∧ Notification.from_json_multi
        [JsonStreamItem.value
            (Notification.to_json { message := { text := "a", time := 1 }, key := "k" }),
          JsonStreamItem.malformed] =
      [Except.ok { message := { text := "a", time := 1 }, key := "k" },
        Except.error (Error.SerdeJsonError "malformed JSON value")] :=
  ⟨from_json_multi_amended.1 [{ message := { text := "a", time := 1 }, key := "k" }]
      (by decide),
    from_json_multi_amended.2 [{ message := { text := "a", time := 1 }, key := "k" }] []
      (by decide)⟩

/-- C2: in the server dispatch loop, for every decoded notification and
every key-map entry `(sub_name, key_set)` of an endpoint with pairwise
distinct sub-names (a `HashMap` invariant), a `ValidatedNotification`
carrying the notification's message under that sub-name is published on the
endpoint's channel exactly when the key set validates the notification
(`validate_set`, i.e. some key of the set validates it); a notification
matching no entry of any endpoint is published on no channel.  The dispatch
function is total — a missing match is silently dropped and produces no
error. -/
theorem server_dispatch_publishes (note : Notification) (eps : List EndpointChannel)
    (e : EndpointChannel) (he : e ∈ eps) (s : String) (K : List Key)
    (hmem : (s, K) ∈ e.keys) (hnd : (e.keys.map Prod.fst).Nodup) :
    (ValidatedNotification.new s note.message ∈ endpointPublishes note e ↔
      note.validate_set K = true)
    ∧ endpointPublishes note e ∈ serverDispatch note eps
    ∧ (note.validate_set K = true ↔ ∃ k ∈ K, note.validate k = true)
    ∧ ((∀ e2 ∈ eps, ∀ p ∈ e2.keys, note.validate_set p.2 = false) →
        ∀ l ∈ serverDispatch note eps, l = []) := by
  refine ⟨?_, List.mem_map_of_mem _ he,
    by simp [Notification.validate_set, List.any_eq_true], ?_⟩
  · rw [mem_endpointPublishes]
    constructor
    · rintro ⟨p, hp, hv, hveq⟩
      have hs : p.1 = s := by
        have := congrArg ValidatedNotification.sub_name hveq
        simpa [ValidatedNotification.new] using this.symm
      have : p = (s, K) := assoc_mem_eq_of_nodup_keys e.keys hnd hp hmem hs
      rw [this] at hv
      exact hv
    · intro hv
      exact ⟨(s, K), hmem, hv, rfl⟩
  · intro hall l hl
    obtain ⟨e2, he2, rfl⟩ := List.mem_map.mp hl
    rw [endpointPublishes, List.filterMap_eq_nil_iff]
    intro p hp
    rw [hall e2 he2 p hp]
    rfl

/-- C2 witness: one endpoint with the single entry `("room", [k])`; the
published-iff-validated equivalence and the no-match clause at that
instance. -/
theorem server_dispatch_publishes_witness :
    (ValidatedNotification.new "room"
          { text := "hello", time := 1 } ∈
        endpointPublishes { message := { text := "hello", time := 1 }, key := "x" }
          { keys := [("room", [Key.from_bytes [7]])] } ↔
      Notification.validate_set { message := { text := "hello", time := 1 }, key := "x" }
        [Key.from_bytes [7]] = true)
    ∧ endpointPublishes { message := { text := "hello", time := 1 }, key := "x" }
          { keys := [("room", [Key.from_bytes [7]])] } ∈
        serverDispatch { message := { text := "hello", time := 1 }, key := "x" }
          [{ keys := [("room", [Key.from_bytes [7]])] }]
    ∧ (Notification.validate_set { message := { text := "hello", time := 1 }, key := "x" }
          [Key.from_bytes [7]] = true ↔
        ∃ k ∈ [Key.from_bytes [7]],
          Notification.validate { message := { text := "hello", time := 1 }, key := "x" } k = true)
    ∧ ((∀ e2 ∈ [({ keys := [("room", [Key.from_bytes [7]])] } : EndpointChannel)],
          ∀ p ∈ e2.keys,
            Notification.validate_set { message := { text := "hello", time := 1 }, key := "x" }
              p.2 = false) →
        ∀ l ∈ serverDispatch { message := { text := "hello", time := 1 }, key := "x" }
            [{ keys := [("room", [Key.from_bytes [7]])] }], l = []) :=
  server_dispatch_publishes { message := { text := "hello", time := 1 }, key := "x" }
    [{ keys := [("room", [Key.from_bytes [7]])] }]
    { keys := [("room", [Key.from_bytes [7]])] } (by simp) "room" [Key.from_bytes [7]]
    (by simp) (by simp)

/-- C10: `Key::from_hex` is partial — it produces a `Key` exactly when the
input is a valid 64-character hexadecimal string (digits `0-9`, `a-f`,
`A-F`); on every other input `blake3::Hash::from_hex` errors and the
`expect` panics (modelled by `none`). -/
theorem key_from_hex_domain (s : String) :
    (Key.from_hex s).isSome = true ↔
      s.data.length = 64 ∧ ∀ c ∈ s.data, (hexCharValue c).isSome = true := by
  by_cases h : s.data.length = 64
  · simp [Key.from_hex, Hash.from_hex, h, decodeHexBytes_isSome]
  · have h2 : ¬s.length = 64 := h
    simp [Key.from_hex, Hash.from_hex, h, h2]

set_option maxRecDepth 4096 in
/-- C10 witness: 64 `'a'` characters decode to a key; 63 characters (and
any non-hex input) make the Rust call panic (`none`). -/
theorem key_from_hex_domain_witness :
    (Key.from_hex (String.mk (List.replicate 64 'a'))).isSome = true
    ∧ (Key.from_hex (String.mk (List.replicate 63 'a'))).isSome = false :=
  ⟨(key_from_hex_domain (String.mk (List.replicate 64 'a'))).mpr
      ⟨by decide, by decide⟩,
    by
      have h := key_from_hex_domain (String.mk (List.replicate 63 'a'))
      have h2 : ¬(String.mk (List.replicate 63 'a')).data.length = 64 := by decide
      cases h3 : (Key.from_hex (String.mk (List.replicate 63 'a'))).isSome
      · rfl
      · exact absurd (h.mp h3).1 h2⟩

end PassItOn
